import Mathlib

/-!
Shallow embedding of `src/kindle_image_downloader.py` (a Playwright-driven
Kindle web-reader scraper) and proofs about its capture loop, content
fingerprinting and image deduplication.

Modelling conventions:
* bytes are `List Nat` (each entry one byte value);
* the SHA-256 hex digest `hashlib.sha256(..).hexdigest()` is an external
  library capability; all definitions are parameterised by an arbitrary
  digest function `sha : List Nat → String`.  Properties that in reality
  rest on facts about SHA-256 (its hex digest is a nonempty 64-character
  string; collisions do not occur among the bytes seen in a run) take those
  facts as explicit hypotheses;
* Python dictionaries become ordered association lists with insert-or-update
  semantics (`dictInsert`), matching insertion-order iteration;
* disk writes become lists of `(path, payload)` pairs accumulated in a state;
* an expression that may raise becomes an `Except Unit` value.
-/

namespace Kindle

/-- UTF-8 encoding of a single character (models Python `str.encode("utf-8")`
per code point). -/
def charUtf8 (c : Char) : List Nat :=
  let n := c.toNat
  if n < 0x80 then [n]
  else if n < 0x800 then
    [0xC0 ||| (n >>> 6), 0x80 ||| (n &&& 0x3F)]
  else if n < 0x10000 then
    [0xE0 ||| (n >>> 12), 0x80 ||| ((n >>> 6) &&& 0x3F), 0x80 ||| (n &&& 0x3F)]
  else
    [0xF0 ||| (n >>> 18), 0x80 ||| ((n >>> 12) &&& 0x3F),
      0x80 ||| ((n >>> 6) &&& 0x3F), 0x80 ||| (n &&& 0x3F)]

/-- UTF-8 encoding of a string, models Python `html.encode("utf-8")`. -/
def utf8Encode (s : String) : List Nat :=
  s.data.flatMap charUtf8

/-- Characters Python `str.strip()` removes by default. -/
def isPySpace (c : Char) : Bool :=
  c = ' ' || c = '\t' || c = '\n' || c = '\x0d' || c = '\x0b' || c = '\x0c'

/-- Models Python `str.strip()` (line 53): strip surrounding whitespace. -/
def pyStrip (s : String) : String :=
  String.mk (((s.data.dropWhile isPySpace).reverse.dropWhile isPySpace).reverse)

/-- Split a character list on a separator character; models Python
`str.split(sep)` for a one-character separator. -/
def splitOnChar (sep : Char) : List Char → List (List Char)
  | [] => [[]]
  | c :: rest =>
      match splitOnChar sep rest with
      | [] => [[c]]
      | g :: gs => if c = sep then [] :: g :: gs else (c :: g) :: gs

/-- Models Python `str.split(sep)` for a one-character separator: the list
of chunks between occurrences of `sep`, empty chunks included. -/
def pySplit (sep : Char) (s : String) : List String :=
  (splitOnChar sep s.data).map String.mk

/-- Models Python string slicing `s[:n]` (used as `digest[:16]` on
line 87): the first `n` characters. -/
def pyTake (n : Nat) (s : String) : String :=
  String.mk (s.data.take n)

/-- Models Python `str.startswith` (line 77) on whole strings. -/
def pyStartsWith (s pre : String) : Bool :=
  pre.data.isPrefixOf s.data

/-- Models the Python stdlib `mimetypes.guess_extension` lookup used on
line 53, restricted to the image media types the standard table maps;
any other media type yields `none`, as `mimetypes` yields `None`. -/
def mimetypesGuessExtension (tp : String) : Option String :=
  if tp = "image/png" then some ".png"
  else if tp = "image/jpeg" then some ".jpg"
  else if tp = "image/gif" then some ".gif"
  else if tp = "image/svg+xml" then some ".svg"
  else if tp = "image/webp" then some ".webp"
  else if tp = "image/tiff" then some ".tiff"
  else if tp = "image/bmp" then some ".bmp"
  else if tp = "image/x-icon" then some ".ico"
  else if tp = "image/avif" then some ".avif"
  else none

/-- Models Python `pathlib.Path(url).name`: the final nonempty path
component, ignoring `.` components. -/
def pathFinalName (url : String) : String :=
  ((pySplit '/' url).filter (fun c => c ≠ "" && c ≠ ".")).getLastD ""

/-- Models Python `pathlib.Path(url).suffix` (line 56): the substring of the
final component from its last dot, provided that dot is neither the first
nor the last character; otherwise the empty string. -/
def pathSuffix (url : String) : String :=
  let cs := (pathFinalName url).data
  match cs.reverse.findIdx? (fun c => c = '.') with
  | none => ""
  | some j =>
      let i := cs.length - 1 - j
      if 0 < i && i < cs.length - 1 then String.mk (cs.drop i) else ""

/-- Embeds `guess_extension` (lines 51-57): a nonempty content type, with
parameters after the first `;` stripped, is looked up in the media-type
table; on failure the URL path suffix is used; on failure again the
fallback `".img"`. -/
def guess_extension (content_type url : String) : String :=
  let viaMime : Option String :=
    if content_type ≠ "" then
      mimetypesGuessExtension (pyStrip ((pySplit ';' content_type).headD ""))
    else none
  match viaMime with
  | some ext => ext
  | none =>
      let suffix := pathSuffix url
      if suffix ≠ "" then suffix else ".img"

/-- An intercepted network response, with the fields `save_response_images`
reads: `request.resource_type`, the `content-type` header (defaulted to
`""` when absent), the body bytes, and `response.url`. -/
structure Response where
  resource_type : String
  content_type : String
  body : List Nat
  url : String
deriving DecidableEq, Repr

/-- The interceptor state: the shared `saved_hashes` set (modelled as the
list of digests in insertion order, newest first) and the files written
into the images directory as `(filename, bytes)` pairs in write order. -/
structure InterceptState where
  saved_hashes : List String
  files : List (String × List Nat)
deriving DecidableEq, Repr

/-- Embeds `save_response_images` (lines 68-88) together with the fate of
its two side effects when the final `write_bytes` raises: the Python
statement order inserts the digest into `saved_hashes` (line 85) before
attempting the disk write (line 88), so on a failed write the digest stays
recorded while no file appears.  `write_succeeds` says whether the write
raises. -/
def save_response_images_exc (sha : List Nat → String) (write_succeeds : Bool)
    (response : Response) (st : InterceptState) : InterceptState :=
  if response.resource_type ≠ "image" then st
  else if ¬ pyStartsWith response.content_type "image/" then st
  else if response.body = [] then st
  else
    let digest := sha response.body
    if digest ∈ st.saved_hashes then st
    else
      let extension := guess_extension response.content_type response.url
      let filename := pyTake 16 digest ++ extension
      { saved_hashes := digest :: st.saved_hashes,
        files := if write_succeeds then st.files ++ [(filename, response.body)]
                 else st.files }

/-- Embeds `save_response_images` (lines 68-88) on the normal path where
the disk write succeeds. -/
def save_response_images (sha : List Nat → String) (response : Response)
    (st : InterceptState) : InterceptState :=
  save_response_images_exc sha true response st

/-- One run of the interceptor: the responses of a session processed in
arrival order, each callback task running its check-then-insert atomically
(no suspension point between the membership test and the insert), starting
from the empty `saved_hashes` set built at line 105. -/
def runInterceptor (sha : List Nat → String) (rs : List Response) :
    InterceptState :=
  rs.foldl (fun st r => save_response_images sha r st) ⟨[], []⟩

/-- A frame of the page at snapshot time, with the fields the loop body
reads: `frame.url`, `frame.name`, and the result of `frame.content()`,
which may raise (`Except.error ()`). -/
structure Frame where
  url : String
  name : String
  content : Except Unit String
deriving Repr

/-- The key under which a frame's markup is stored (line 130):
`frame.url or f"frame_{frame.name}"`, Python `or` picking the synthetic
name exactly when the URL is empty. -/
def frameKey (f : Frame) : String :=
  if f.url ≠ "" then f.url else "frame_" ++ f.name

/-- Python dictionary assignment `d[k] = v` on an insertion-ordered
association list: an existing key keeps its position and gets the new
value, a fresh key is appended. -/
def dictInsert : List (String × String) → String → String → List (String × String)
  | [], k, v => [(k, v)]
  | (k', v') :: rest, k, v =>
      if k' = k then (k, v) :: rest else (k', v') :: dictInsert rest k v

/-- One step of the frame-collection loop (lines 128-132): a frame whose
`content()` read raises is skipped (`except Exception: continue`), a
successful read is stored under the frame's key. -/
def collectFrame (d : List (String × String)) (f : Frame) :
    List (String × String) :=
  match f.content with
  | Except.ok html => dictInsert d (frameKey f) html
  | Except.error _ => d

/-- Embeds lines 127-132: build `frame_contents` from the session's frames
in enumeration order. -/
def buildContents (frames : List Frame) : List (String × String) :=
  frames.foldl collectFrame []

/-- The byte stream hashed by `save_frame_html`: the UTF-8 encodings of the
frame markups concatenated in iteration order (the successive
`combined.update(html.encode("utf-8"))` calls of line 97). -/
def snapshotBytes (contents : List (String × String)) : List Nat :=
  (contents.map (fun p => utf8Encode p.2)).flatten

/-- Models Python `f"{page_index:04d}"`: decimal, left-padded with zeros to
at least four digits. -/
def pad4 (n : Nat) : String :=
  let s := toString n
  if s.length < 4 then String.mk (List.replicate (4 - s.length) '0') ++ s else s

/-- The sanitised frame identifier of line 94:
`name.replace("://", "_").replace("/", "_")`. -/
def sanitizeName (name : String) : String :=
  (name.replace "://" "_").replace "/" "_"

/-- Embeds `save_frame_html` (lines 91-98): returns the HTML files written
(one per entry, named from the page index and the sanitised frame
identifier) and the hex digest of the concatenated markups. -/
def save_frame_html (sha : List Nat → String) (page_index : Nat)
    (html_dir : String) (contents : List (String × String)) :
    List (String × String) × String :=
  (contents.map (fun p =>
      (html_dir ++ "/page_" ++ pad4 page_index ++ "_" ++ sanitizeName p.1
        ++ ".html", p.2)),
    sha (snapshotBytes contents))

/-- The fingerprint `save_frame_html` returns for a snapshot. -/
def fingerprint (sha : List Nat → String) (contents : List (String × String)) :
    String :=
  sha (snapshotBytes contents)

/-- Outcome of the capture loop of `main` (lines 124-146). -/
structure CaptureResult where
  pageTurns : Nat
  iterations : Nat
  unchanged_count : Nat
  last_hash : String
  stoppedByUnchanged : Bool
deriving DecidableEq, Repr

/-- Embeds one unrolling of the `for page_index in range(1, max_pages + 1)`
loop (lines 126-146).  `fuel` is the number of page indices left in the
range; `snaps page_index` is the frame list the session exposes on that
iteration; `cnt`, `last`, `turns`, `iters` carry `unchanged_count`,
`last_hash`, the number of `ArrowRight` presses issued so far and the
number of loop bodies executed so far.  The HTML files written by
`save_frame_html` go to disk and are not part of the result. -/
def captureLoopAux (sha : List Nat → String) (stop_unchanged : Int)
    (html_dir : String) (snaps : Nat → List Frame) :
    Nat → Nat → Nat → String → Nat → Nat → CaptureResult
  | 0, _, cnt, last, turns, iters =>
      ⟨turns, iters, cnt, last, false⟩
  | fuel + 1, page_index, cnt, last, turns, iters =>
      let contents := buildContents (snaps page_index)
      let current_hash := (save_frame_html sha page_index html_dir contents).2
      let cnt' := if current_hash = last then cnt + 1 else 0
      let last' := if current_hash = last then last else current_hash
      if (cnt' : Int) ≥ stop_unchanged then
        ⟨turns, iters + 1, cnt', last', true⟩
      else
        captureLoopAux sha stop_unchanged html_dir snaps fuel (page_index + 1)
          cnt' last' (turns + 1) (iters + 1)

/-- Embeds the capture loop of `main` (lines 124-146) from its initial
state `unchanged_count = 0`, `last_hash = ""` over page indices
`1 .. max_pages`. -/
def captureLoop (sha : List Nat → String) (max_pages : Nat)
    (stop_unchanged : Int) (html_dir : String) (snaps : Nat → List Frame) :
    CaptureResult :=
  captureLoopAux sha stop_unchanged html_dir snaps max_pages 1 0 "" 0 0

lemma utf8Encode_append (a b : String) :
    utf8Encode (a ++ b) = utf8Encode a ++ utf8Encode b := by
  simp [utf8Encode, String.data_append]

lemma string_foldl_append (t : List String) :
    ∀ a : String, t.foldl (· ++ ·) a = a ++ t.foldl (· ++ ·) "" := by
  induction t with
  | nil => intro a; simp
  | cons s t ih =>
      intro a
      rw [List.foldl_cons, List.foldl_cons, ih (a ++ s), ih ("" ++ s)]
      simp [String.append_assoc]

lemma string_join_cons (s : String) (t : List String) :
    String.join (s :: t) = s ++ String.join t := by
  show (s :: t).foldl (· ++ ·) "" = s ++ t.foldl (· ++ ·) ""
  rw [List.foldl_cons, string_foldl_append t ("" ++ s)]
  simp

lemma utf8Encode_join (l : List String) :
    utf8Encode (String.join l) = (l.map utf8Encode).flatten := by
  induction l with
  | nil => rfl
  | cons s t ih => rw [string_join_cons, utf8Encode_append, ih]; rfl

lemma snapshotBytes_eq_encode_join (contents : List (String × String)) :
    snapshotBytes contents = utf8Encode (String.join (contents.map Prod.snd)) := by
  rw [utf8Encode_join, snapshotBytes, List.map_map]
  rfl

lemma fingerprint_congr (sha : List Nat → String)
    (c₁ c₂ : List (String × String))
    (h : String.join (c₁.map Prod.snd) = String.join (c₂.map Prod.snd)) :
    fingerprint sha c₁ = fingerprint sha c₂ := by
  unfold fingerprint
  rw [snapshotBytes_eq_encode_join, snapshotBytes_eq_encode_join, h]

/-- C5: the fingerprint computation is deterministic — two snapshots whose
concatenated frame markups (in enumeration order) coincide get the same
digest from `save_frame_html`, whatever the page index or output directory
is. -/
theorem fingerprint_deterministic (sha : List Nat → String)
    (i₁ i₂ : Nat) (d₁ d₂ : String) (c₁ c₂ : List (String × String))
    (h : String.join (c₁.map Prod.snd) = String.join (c₂.map Prod.snd)) :
    (save_frame_html sha i₁ d₁ c₁).2 = (save_frame_html sha i₂ d₂ c₂).2 :=
  fingerprint_congr sha c₁ c₂ h

/-- Witness for C5: snapshots `[("u", "ab")]` and `[("v", "a"), ("w", "b")]`
concatenate to the same markup and hash identically across distinct page
indices and directories. -/
theorem fingerprint_deterministic_witness :
    String.join (([("u", "ab")] : List (String × String)).map Prod.snd)
        = String.join (([("v", "a"), ("w", "b")] : List (String × String)).map Prod.snd)
    ∧ (save_frame_html (fun bs => toString bs) 1 "out" [("u", "ab")]).2
        = (save_frame_html (fun bs => toString bs) 2 "elsewhere"
            [("v", "a"), ("w", "b")]).2 :=
  ⟨by decide,
    fingerprint_deterministic (fun bs => toString bs) 1 2 "out" "elsewhere"
      [("u", "ab")] [("v", "a"), ("w", "b")] (by decide)⟩

/-- C9: the fingerprint depends only on the ordered markup values of a
snapshot, not on the frame identifiers under which they are stored. -/
theorem fingerprint_ignores_frame_ids (sha : List Nat → String)
    (i₁ i₂ : Nat) (d₁ d₂ : String) (c₁ c₂ : List (String × String))
    (h : c₁.map Prod.snd = c₂.map Prod.snd) :
    (save_frame_html sha i₁ d₁ c₁).2 = (save_frame_html sha i₂ d₂ c₂).2 :=
  fingerprint_congr sha c₁ c₂ (by rw [h])

/-- Witness for C9: equal markups in order under different frame
identifiers (a URL key versus a synthetic `frame_` key) fingerprint
identically, so such consecutive iterations count as unchanged. -/
theorem fingerprint_ignores_frame_ids_witness :
    (([("http://a/1", "x"), ("http://a/2", "y")] : List (String × String)).map Prod.snd
        = ([("frame_f0", "x"), ("frame_f1", "y")] : List (String × String)).map Prod.snd)
    ∧ (save_frame_html (fun bs => toString bs) 3 "out"
          [("http://a/1", "x"), ("http://a/2", "y")]).2
        = (save_frame_html (fun bs => toString bs) 4 "out"
            [("frame_f0", "x"), ("frame_f1", "y")]).2 :=
  ⟨by decide,
    fingerprint_ignores_frame_ids (fun bs => toString bs) 3 4 "out" "out"
      [("http://a/1", "x"), ("http://a/2", "y")]
      [("frame_f0", "x"), ("frame_f1", "y")] (by decide)⟩

/-- C6: a frame whose `content()` read raises is the only one omitted from
that iteration's snapshot — collecting the frames with the errored frame
present equals collecting them with it removed, so the other frames are
captured and the iteration proceeds normally. -/
theorem errored_frame_skipped (pre post : List Frame) (f : Frame)
    (hf : f.content = Except.error ()) :
    buildContents (pre ++ f :: post) = buildContents (pre ++ post) := by
  unfold buildContents
  rw [List.foldl_append, List.foldl_append, List.foldl_cons]
  have hstep : collectFrame (pre.foldl collectFrame []) f
      = pre.foldl collectFrame [] := by
    unfold collectFrame
    rw [hf]
  rw [hstep]

/-- Witness for C6: with the middle frame's read raising, the snapshot is
exactly the one built from the two healthy frames. -/
theorem errored_frame_skipped_witness :
    (Frame.mk "" "bad" (Except.error ())).content = Except.error ()
    ∧ buildContents
        ([Frame.mk "http://a" "f0" (Except.ok "x")]
          ++ Frame.mk "" "bad" (Except.error ())
          :: [Frame.mk "" "f2" (Except.ok "y")])
      = buildContents
        ([Frame.mk "http://a" "f0" (Except.ok "x")]
          ++ [Frame.mk "" "f2" (Except.ok "y")]) :=
  ⟨rfl,
    errored_frame_skipped [Frame.mk "http://a" "f0" (Except.ok "x")]
      [Frame.mk "" "f2" (Except.ok "y")]
      (Frame.mk "" "bad" (Except.error ())) rfl⟩

/-- C7: `guess_extension` tries the media-type table on the declared
content type with its parameters stripped, falls back to the URL path
suffix, then to `".img"`; in particular content type `image/png` always
yields `".png"` regardless of the URL. -/
theorem guess_extension_spec :
    (∀ url, guess_extension "image/png" url = ".png")
    ∧ (∀ content_type url ext, content_type ≠ "" →
        mimetypesGuessExtension
            (pyStrip ((pySplit ';' content_type).headD "")) = some ext →
        guess_extension content_type url = ext)
    ∧ (∀ content_type url,
        (content_type = "" ∨
          mimetypesGuessExtension
            (pyStrip ((pySplit ';' content_type).headD "")) = none) →
        pathSuffix url ≠ "" →
        guess_extension content_type url = pathSuffix url)
    ∧ (∀ content_type url,
        (content_type = "" ∨
          mimetypesGuessExtension
            (pyStrip ((pySplit ';' content_type).headD "")) = none) →
        pathSuffix url = "" →
        guess_extension content_type url = ".img") := by
  refine ⟨fun url => rfl, ?_, ?_, ?_⟩
  · intro content_type url ext h1 h2
    unfold guess_extension
    rw [if_pos h1, h2]
  · intro content_type url h1 h2
    unfold guess_extension
    rcases h1 with h1 | h1
    · rw [if_neg (by simp [h1]), if_pos h2]
    · rcases em (content_type = "") with he | he
      · rw [if_neg (by simp [he]), if_pos h2]
      · rw [if_pos he, h1, if_pos h2]
  · intro content_type url h1 h2
    unfold guess_extension
    rcases h1 with h1 | h1
    · rw [if_neg (by simp [h1]), if_neg (by simp [h2])]
    · rcases em (content_type = "") with he | he
      · rw [if_neg (by simp [he]), if_neg (by simp [h2])]
      · rw [if_pos he, h1, if_neg (by simp [h2])]

/-- Witness for C7: `image/png` beats a `.gif` URL suffix; an unmapped
image type falls back to the URL suffix; with no suffix either, the
default `".img"` results. -/
theorem guess_extension_spec_witness :
    guess_extension "image/png" "http://x/a.gif" = ".png"
    ∧ guess_extension "image/x-unknown-kindle" "http://x/a.jpg"
        = pathSuffix "http://x/a.jpg"
    ∧ guess_extension "image/x-unknown-kindle" "http://x/img" = ".img" :=
  ⟨guess_extension_spec.1 "http://x/a.gif",
    guess_extension_spec.2.2.1 "image/x-unknown-kindle" "http://x/a.jpg"
      (Or.inr (by decide)) (by decide),
    guess_extension_spec.2.2.2 "image/x-unknown-kindle" "http://x/img"
      (Or.inr (by decide)) (by decide)⟩

/-- C8: a response classified as an image whose body is empty is dropped
before the digest step — no file is written and the saved-hash set is
untouched. -/
theorem empty_body_no_effect (sha : List Nat → String) (r : Response)
    (st : InterceptState) (h1 : r.resource_type = "image")
    (hb : r.body = []) :
    (save_response_images sha r st).files = st.files
    ∧ (save_response_images sha r st).saved_hashes = st.saved_hashes := by
  have hst : save_response_images sha r st = st := by
    unfold save_response_images save_response_images_exc
    rw [h1, hb]
    simp
  rw [hst]
  exact ⟨rfl, rfl⟩

/-- Witness for C8: a concrete empty-bodied image response leaves the state
alone. -/
theorem empty_body_no_effect_witness :
    (save_response_images (fun bs => toString bs)
        (Response.mk "image" "image/png" [] "http://x/a.png")
        (InterceptState.mk ["d0"] [("f", [7])])).files = [("f", [7])]
    ∧ (save_response_images (fun bs => toString bs)
        (Response.mk "image" "image/png" [] "http://x/a.png")
        (InterceptState.mk ["d0"] [("f", [7])])).saved_hashes = ["d0"] :=
  empty_body_no_effect (fun bs => toString bs)
    (Response.mk "image" "image/png" [] "http://x/a.png")
    (InterceptState.mk ["d0"] [("f", [7])]) rfl rfl

/-- The fingerprint the loop computes on iteration `i`: the digest
`save_frame_html` returns for the frames the session exposes then. -/
def pageFingerprint (sha : List Nat → String) (snaps : Nat → List Frame)
    (i : Nat) : String :=
  fingerprint sha (buildContents (snaps i))

lemma captureLoopAux_step_changed (sha : List Nat → String) (stop : Int)
    (d : String) (snaps : Nat → List Frame) (fuel idx cnt : Nat)
    (last : String) (turns iters : Nat) (hstop : 1 ≤ stop)
    (h : pageFingerprint sha snaps idx ≠ last) :
    captureLoopAux sha stop d snaps (fuel + 1) idx cnt last turns iters
      = captureLoopAux sha stop d snaps fuel (idx + 1) 0
          (pageFingerprint sha snaps idx) (turns + 1) (iters + 1) := by
  simp only [pageFingerprint, fingerprint] at h
  simp only [captureLoopAux, save_frame_html]
  rw [if_neg h, if_neg h]
  rw [if_neg (by omega : ¬ ((0 : Nat) : Int) ≥ stop)]
  rfl

lemma captureLoopAux_step_changed_stop (sha : List Nat → String) (stop : Int)
    (d : String) (snaps : Nat → List Frame) (fuel idx cnt : Nat)
    (last : String) (turns iters : Nat) (hstop : ((0 : Nat) : Int) ≥ stop)
    (h : pageFingerprint sha snaps idx ≠ last) :
    captureLoopAux sha stop d snaps (fuel + 1) idx cnt last turns iters
      = ⟨turns, iters + 1, 0, pageFingerprint sha snaps idx, true⟩ := by
  simp only [pageFingerprint, fingerprint] at h ⊢
  simp only [captureLoopAux, save_frame_html]
  rw [if_neg h, if_neg h, if_pos hstop]

lemma captureLoopAux_step_same_stop (sha : List Nat → String) (stop : Int)
    (d : String) (snaps : Nat → List Frame) (fuel idx cnt : Nat)
    (last : String) (turns iters : Nat)
    (h : pageFingerprint sha snaps idx = last)
    (hge : ((cnt + 1 : Nat) : Int) ≥ stop) :
    captureLoopAux sha stop d snaps (fuel + 1) idx cnt last turns iters
      = ⟨turns, iters + 1, cnt + 1, last, true⟩ := by
  simp only [pageFingerprint, fingerprint] at h
  simp only [captureLoopAux, save_frame_html]
  rw [if_pos h, if_pos h, if_pos hge]

lemma captureLoopAux_step_same_go (sha : List Nat → String) (stop : Int)
    (d : String) (snaps : Nat → List Frame) (fuel idx cnt : Nat)
    (last : String) (turns iters : Nat)
    (h : pageFingerprint sha snaps idx = last)
    (hlt : ¬ ((cnt + 1 : Nat) : Int) ≥ stop) :
    captureLoopAux sha stop d snaps (fuel + 1) idx cnt last turns iters
      = captureLoopAux sha stop d snaps fuel (idx + 1) (cnt + 1) last
          (turns + 1) (iters + 1) := by
  simp only [pageFingerprint, fingerprint] at h
  simp only [captureLoopAux, save_frame_html]
  rw [if_pos h, if_pos h, if_neg hlt]

lemma captureLoopAux_iterations_le (sha : List Nat → String) (stop : Int)
    (d : String) (snaps : Nat → List Frame) :
    ∀ (fuel idx cnt : Nat) (last : String) (turns iters : Nat),
      (captureLoopAux sha stop d snaps fuel idx cnt last turns iters).iterations
        ≤ iters + fuel := by
  intro fuel
  induction fuel with
  | zero => intro idx cnt last turns iters; simp [captureLoopAux]
  | succ f ih =>
      intro idx cnt last turns iters
      by_cases h : pageFingerprint sha snaps idx = last
      · by_cases hge : ((cnt + 1 : Nat) : Int) ≥ stop
        · rw [captureLoopAux_step_same_stop sha stop d snaps f idx cnt last
            turns iters h hge]
          show iters + 1 ≤ iters + (f + 1)
          omega
        · rw [captureLoopAux_step_same_go sha stop d snaps f idx cnt last
            turns iters h hge]
          calc (captureLoopAux sha stop d snaps f (idx + 1) (cnt + 1) last
              (turns + 1) (iters + 1)).iterations
              ≤ (iters + 1) + f := ih _ _ _ _ _
            _ ≤ iters + (f + 1) := by omega
      · by_cases hstop : ((0 : Nat) : Int) ≥ stop
        · rw [captureLoopAux_step_changed_stop sha stop d snaps f idx cnt last
            turns iters hstop h]
          show iters + 1 ≤ iters + (f + 1)
          omega
        · rw [captureLoopAux_step_changed sha stop d snaps f idx cnt last
            turns iters (by omega) h]
          calc (captureLoopAux sha stop d snaps f (idx + 1) 0
              (pageFingerprint sha snaps idx) (turns + 1)
              (iters + 1)).iterations
              ≤ (iters + 1) + f := ih _ _ _ _ _
            _ ≤ iters + (f + 1) := by omega

lemma captureLoopAux_turns_ge (sha : List Nat → String) (stop : Int)
    (d : String) (snaps : Nat → List Frame) :
    ∀ (fuel idx cnt : Nat) (last : String) (turns iters : Nat),
      turns ≤ (captureLoopAux sha stop d snaps fuel idx cnt last turns
        iters).pageTurns := by
  intro fuel
  induction fuel with
  | zero => intro idx cnt last turns iters; simp [captureLoopAux]
  | succ f ih =>
      intro idx cnt last turns iters
      by_cases h : pageFingerprint sha snaps idx = last
      · by_cases hge : ((cnt + 1 : Nat) : Int) ≥ stop
        · rw [captureLoopAux_step_same_stop sha stop d snaps f idx cnt last
            turns iters h hge]
        · rw [captureLoopAux_step_same_go sha stop d snaps f idx cnt last
            turns iters h hge]
          calc turns ≤ turns + 1 := by omega
            _ ≤ _ := ih _ _ _ _ _
      · by_cases hstop : ((0 : Nat) : Int) ≥ stop
        · rw [captureLoopAux_step_changed_stop sha stop d snaps f idx cnt last
            turns iters hstop h]
        · rw [captureLoopAux_step_changed sha stop d snaps f idx cnt last
            turns iters (by omega) h]
          calc turns ≤ turns + 1 := by omega
            _ ≤ _ := ih _ _ _ _ _

lemma captureLoopAux_const (sha : List Nat → String) (d : String)
    (snaps : Nat → List Frame) (s : Nat) (h : String) :
    ∀ (k c fuel idx turns iters : Nat),
      (∀ i, idx ≤ i → pageFingerprint sha snaps i = h) →
      c + k + 1 = s → k + 1 ≤ fuel →
      captureLoopAux sha (s : Int) d snaps fuel idx c h turns iters
        = ⟨turns + k, iters + k + 1, s, h, true⟩ := by
  intro k
  induction k with
  | zero =>
      intro c fuel idx turns iters hconst hc hfuel
      obtain ⟨f, rfl⟩ : ∃ f, fuel = f + 1 := ⟨fuel - 1, by omega⟩
      rw [captureLoopAux_step_same_stop sha (s : Int) d snaps f idx c h turns
        iters (hconst idx le_rfl) (by omega)]
      have hcs : c + 1 = s := by omega
      rw [← hcs]
      simp
  | succ k ih =>
      intro c fuel idx turns iters hconst hc hfuel
      obtain ⟨f, rfl⟩ : ∃ f, fuel = f + 1 := ⟨fuel - 1, by omega⟩
      rw [captureLoopAux_step_same_go sha (s : Int) d snaps f idx c h turns
        iters (hconst idx le_rfl) (by omega)]
      rw [ih (c + 1) f (idx + 1) (turns + 1) (iters + 1)
        (fun i hi => hconst i (by omega)) (by omega) (by omega)]
      congr 1 <;> omega

lemma captureLoopAux_skip (sha : List Nat → String) (stop : Int) (d : String)
    (snaps : Nat → List Frame) (hstop : 1 ≤ stop) :
    ∀ (m fuel idx : Nat) (last : String) (turns iters : Nat),
      m ≤ fuel →
      (∀ t, t < m → pageFingerprint sha snaps (idx + t)
          ≠ (if t = 0 then last else pageFingerprint sha snaps (idx + t - 1))) →
      captureLoopAux sha stop d snaps fuel idx 0 last turns iters
        = captureLoopAux sha stop d snaps (fuel - m) (idx + m) 0
            (if m = 0 then last else pageFingerprint sha snaps (idx + m - 1))
            (turns + m) (iters + m) := by
  intro m
  induction m with
  | zero => intro fuel idx last turns iters _ _; simp
  | succ m ih =>
      intro fuel idx last turns iters hfuel hch
      obtain ⟨f, rfl⟩ : ∃ f, fuel = f + 1 := ⟨fuel - 1, by omega⟩
      have h0 : pageFingerprint sha snaps idx ≠ last := by
        have := hch 0 (by omega)
        simpa using this
      rw [captureLoopAux_step_changed sha stop d snaps f idx 0 last turns
        iters hstop h0]
      rw [ih f (idx + 1) (pageFingerprint sha snaps idx) (turns + 1)
        (iters + 1) (by omega) ?_]
      · have harg : (if m = 0 then pageFingerprint sha snaps idx
            else pageFingerprint sha snaps (idx + 1 + m - 1))
            = pageFingerprint sha snaps (idx + (m + 1) - 1) := by
          rcases Nat.eq_zero_or_pos m with hm | hm
          · subst hm; simp
          · rw [if_neg (by omega)]
            congr 1
            omega
        rw [harg]
        have hif : (if m + 1 = 0 then last
            else pageFingerprint sha snaps (idx + (m + 1) - 1))
            = pageFingerprint sha snaps (idx + (m + 1) - 1) := by
          rw [if_neg (by omega)]
        rw [hif]
        congr 1 <;> omega
      · intro t ht
        rcases Nat.eq_zero_or_pos t with h | h
        · subst h
          have := hch 1 (by omega)
          simpa using this
        · have h2 := hch (t + 1) (by omega)
          rw [if_neg (by omega)] at h2
          rw [if_neg (by omega)]
          have e1 : idx + 1 + t = idx + (t + 1) := by omega
          rw [e1]
          exact h2

/-- C3: whatever the digest function, stop threshold and page contents,
the capture loop executes at most `max_pages` iterations — termination is
forced by the page-index range even when no fingerprint ever repeats. -/
theorem capture_iterations_le_max_pages (sha : List Nat → String)
    (max_pages : Nat) (stop_unchanged : Int) (html_dir : String)
    (snaps : Nat → List Frame) :
    (captureLoop sha max_pages stop_unchanged html_dir snaps).iterations
      ≤ max_pages := by
  have := captureLoopAux_iterations_le sha stop_unchanged html_dir snaps
    max_pages 1 0 "" 0 0
  simpa [captureLoop] using this

/-- C2: when the content stabilises — fingerprints change on each of the
first `k` iterations (the first away from the empty sentinel) and are
constant from iteration `k` on — the loop stops by the unchanged-counter
rule exactly at iteration `k + s` for threshold `s`: the counter has just
reached `s` after `s` consecutive repeats, never fewer, and `k + s - 1`
page turns were issued in total. -/
theorem capture_stops_exactly (sha : List Nat → String) (html_dir : String)
    (snaps : Nat → List Frame) (s k max_pages : Nat)
    (hs : 1 ≤ s) (hk : 1 ≤ k) (hmp : k + s ≤ max_pages)
    (hfirst : pageFingerprint sha snaps 1 ≠ "")
    (hch : ∀ i, 2 ≤ i → i ≤ k →
      pageFingerprint sha snaps i ≠ pageFingerprint sha snaps (i - 1))
    (hstable : ∀ i, k ≤ i →
      pageFingerprint sha snaps i = pageFingerprint sha snaps k) :
    captureLoop sha max_pages (s : Int) html_dir snaps
      = ⟨k + s - 1, k + s, s, pageFingerprint sha snaps k, true⟩ := by
  unfold captureLoop
  rw [captureLoopAux_skip sha (s : Int) html_dir snaps (by omega) k max_pages
    1 "" 0 0 (by omega) ?_]
  · rw [if_neg (by omega)]
    have hlast : pageFingerprint sha snaps (1 + k - 1) = pageFingerprint sha
        snaps k := by
      congr 1
      omega
    rw [hlast]
    rw [captureLoopAux_const sha html_dir snaps s (pageFingerprint sha snaps k)
      (s - 1) 0 (max_pages - k) (1 + k) (0 + k) (0 + k)
      (fun i hi => hstable i (by omega)) (by omega) (by omega)]
    congr 1 <;> omega
  · intro t ht
    rcases Nat.eq_zero_or_pos t with h | h
    · subst h
      simpa using hfirst
    · rw [if_neg (by omega)]
      have h2 := hch (t + 1) (by omega) (by omega)
      have e1 : 1 + t = t + 1 := by omega
      rw [e1]
      exact h2

/-- Witness for C2: with constant frame content (fingerprints A, A, A from
the first iteration) and threshold 2, the loop stops at iteration 3 having
issued exactly 2 page turns, with the counter at 2. -/
theorem capture_stops_exactly_witness :
    captureLoop (fun bs => "A" ++ toString bs.length) 300 (2 : Int) "out/html"
        (fun _ => [Frame.mk "http://f" "f0" (Except.ok "page")])
      = ⟨2, 3, 2, pageFingerprint (fun bs => "A" ++ toString bs.length)
          (fun _ => [Frame.mk "http://f" "f0" (Except.ok "page")]) 1, true⟩ :=
  capture_stops_exactly (fun bs => "A" ++ toString bs.length) "out/html"
    (fun _ => [Frame.mk "http://f" "f0" (Except.ok "page")]) 2 1 300
    (by omega) (by omega) (by omega) (by decide)
    (fun i h2 hk => absurd (le_trans h2 hk) (by omega))
    (fun i _ => rfl)

/-- Counterexample to C4 as stated: with `--stop-unchanged 0` (the CLI
accepts any integer) the very first iteration already satisfies
`unchanged_count >= stop_unchanged` after the reset to 0, so the loop
stops by the unchanged rule with zero page turns issued. -/
theorem stop_zero_counterexample :
    (captureLoop (fun _ => "A") 5 (0 : Int) "out/html"
        (fun _ => [Frame.mk "http://f" "f0" (Except.ok "page")])).stoppedByUnchanged
      = true
    ∧ (captureLoop (fun _ => "A") 5 (0 : Int) "out/html"
        (fun _ => [Frame.mk "http://f" "f0" (Except.ok "page")])).pageTurns
      = 0 :=
  ⟨rfl, rfl⟩

/-- C4 (amended): `last_hash` starts as the empty-string sentinel and a
SHA-256 hex digest is never empty, so the first comparison always resets
the counter; consequently, for every configuration whose stop-unchanged
threshold is at least 1, whenever the loop is terminated by the stop
decision it has issued at least one page turn. -/
theorem first_turn_before_stop (sha : List Nat → String) (max_pages : Nat)
    (stop_unchanged : Int) (html_dir : String) (snaps : Nat → List Frame)
    (hsha : ∀ bs, sha bs ≠ "")
    (hstop : 1 ≤ stop_unchanged)
    (hterm : (captureLoop sha max_pages stop_unchanged html_dir
      snaps).stoppedByUnchanged = true) :
    1 ≤ (captureLoop sha max_pages stop_unchanged html_dir snaps).pageTurns := by
  unfold captureLoop at hterm ⊢
  cases max_pages with
  | zero => simp [captureLoopAux] at hterm
  | succ m =>
      have h1 : pageFingerprint sha snaps 1 ≠ "" := by
        unfold pageFingerprint fingerprint
        exact hsha _
      rw [captureLoopAux_step_changed sha stop_unchanged html_dir snaps m 1 0
        "" 0 0 hstop h1]
      exact captureLoopAux_turns_ge sha stop_unchanged html_dir snaps m 2 0
        (pageFingerprint sha snaps 1) 1 1

/-- Witness for C4 (amended): a concrete stabilised run with threshold 1
stops by the unchanged rule and has issued a page turn. -/
theorem first_turn_before_stop_witness :
    1 ≤ (captureLoop (fun _ => "A") 2 (1 : Int) "out/html"
      (fun _ => [Frame.mk "http://f" "f0" (Except.ok "page")])).pageTurns :=
  first_turn_before_stop (fun _ => "A") 2 (1 : Int) "out/html"
    (fun _ => [Frame.mk "http://f" "f0" (Except.ok "page")])
    (by intro bs; show ("A" : String) ≠ ""; decide) (by omega) (by decide)

lemma save_response_images_saved_mono (sha : List Nat → String)
    (r : Response) (st : InterceptState) :
    st.saved_hashes ⊆ (save_response_images sha r st).saved_hashes := by
  simp only [save_response_images, save_response_images_exc]
  split_ifs <;> simp [List.subset_cons_self, List.Subset.refl]

lemma foldl_saved_mono (sha : List Nat → String) :
    ∀ (rs : List Response) (st : InterceptState) (d : String),
      d ∈ st.saved_hashes →
      d ∈ (rs.foldl (fun st r => save_response_images sha r st)
        st).saved_hashes := by
  intro rs
  induction rs with
  | nil => intro st d hd; simpa using hd
  | cons r t ih =>
      intro st d hd
      rw [List.foldl_cons]
      exact ih (save_response_images sha r st) d
        (save_response_images_saved_mono sha r st hd)

lemma qualifying_mem_saved (sha : List Nat → String) (r : Response)
    (st : InterceptState) (h1 : r.resource_type = "image")
    (h2 : pyStartsWith r.content_type "image/" = true) (h3 : r.body ≠ []) :
    sha r.body ∈ (save_response_images sha r st).saved_hashes := by
  simp only [save_response_images, save_response_images_exc]
  rw [if_neg (by simp [h1]), if_neg (by simp [h2]), if_neg h3]
  by_cases hmem : sha r.body ∈ st.saved_hashes
  · rw [if_pos hmem]; exact hmem
  · rw [if_neg hmem]; exact List.mem_cons_self _ _

/-- The dedup invariant maintained by the interceptor: the saved-hash set
is exactly the digests of the files written (newest first), and those
digests are pairwise distinct. -/
def GoodState (sha : List Nat → String) (st : InterceptState) : Prop :=
  st.saved_hashes = (st.files.map (fun f => sha f.2)).reverse
  ∧ (st.files.map (fun f => sha f.2)).Nodup

lemma save_response_images_good (sha : List Nat → String) (r : Response)
    (st : InterceptState) (h : GoodState sha st) :
    GoodState sha (save_response_images sha r st) := by
  obtain ⟨hsaved, hnodup⟩ := h
  simp only [save_response_images, save_response_images_exc]
  by_cases ha : r.resource_type = "image"
  case neg => rw [if_pos ha]; exact ⟨hsaved, hnodup⟩
  rw [if_neg (not_not_intro ha)]
  by_cases hb : pyStartsWith r.content_type "image/" = true
  case neg => rw [if_pos (by simpa using hb)]; exact ⟨hsaved, hnodup⟩
  rw [if_neg (by simpa using hb)]
  by_cases hc : r.body = []
  case pos => rw [if_pos hc]; exact ⟨hsaved, hnodup⟩
  rw [if_neg hc]
  by_cases hd : sha r.body ∈ st.saved_hashes
  case pos => rw [if_pos hd]; exact ⟨hsaved, hnodup⟩
  rw [if_neg hd]
  have hnot : sha r.body ∉ st.files.map (fun f => sha f.2) := by
    intro hmem
    exact hd (by rw [hsaved]; exact List.mem_reverse.mpr hmem)
  constructor
  · simp only [List.map_append, List.reverse_append, hsaved]
    simp
  · simp only [if_true, List.map_append]
    rw [List.nodup_append]
    refine ⟨hnodup, List.nodup_singleton _, ?_⟩
    intro x hx hx'
    simp at hx'
    subst hx'
    exact hnot hx

lemma runInterceptor_good (sha : List Nat → String) (rs : List Response) :
    GoodState sha (runInterceptor sha rs) := by
  unfold runInterceptor
  have key : ∀ (l : List Response) (st : InterceptState), GoodState sha st →
      GoodState sha (l.foldl (fun st r => save_response_images sha r st) st) := by
    intro l
    induction l with
    | nil => intro st h; simpa using h
    | cons r t ih =>
        intro st h
        rw [List.foldl_cons]
        exact ih _ (save_response_images_good sha r st h)
  exact key rs ⟨[], []⟩ ⟨by simp, by simp⟩

lemma save_response_images_files_from (sha : List Nat → String)
    (r : Response) (st : InterceptState) (f : String × List Nat)
    (hf : f ∈ (save_response_images sha r st).files) :
    f ∈ st.files ∨ f.2 = r.body := by
  simp only [save_response_images, save_response_images_exc] at hf
  by_cases ha : r.resource_type = "image"
  case neg => rw [if_pos ha] at hf; exact Or.inl hf
  rw [if_neg (not_not_intro ha)] at hf
  by_cases hb : pyStartsWith r.content_type "image/" = true
  case neg => rw [if_pos (by simpa using hb)] at hf; exact Or.inl hf
  rw [if_neg (by simpa using hb)] at hf
  by_cases hc : r.body = []
  case pos => rw [if_pos hc] at hf; exact Or.inl hf
  rw [if_neg hc] at hf
  by_cases hd : sha r.body ∈ st.saved_hashes
  case pos => rw [if_pos hd] at hf; exact Or.inl hf
  rw [if_neg hd] at hf
  simp only [if_pos rfl] at hf
  rcases List.mem_append.mp hf with h | h
  · exact Or.inl h
  · simp at h
    exact Or.inr (by rw [h])

lemma foldl_files_from (sha : List Nat → String) :
    ∀ (rs : List Response) (st : InterceptState) (f : String × List Nat),
      f ∈ (rs.foldl (fun st r => save_response_images sha r st) st).files →
      f ∈ st.files ∨ ∃ r, r ∈ rs ∧ r.body = f.2 := by
  intro rs
  induction rs with
  | nil => intro st f hf; exact Or.inl (by simpa using hf)
  | cons r t ih =>
      intro st f hf
      rw [List.foldl_cons] at hf
      rcases ih (save_response_images sha r st) f hf with h | h
      · rcases save_response_images_files_from sha r st f h with h' | h'
        · exact Or.inl h'
        · exact Or.inr ⟨r, List.mem_cons_self _ _, h'.symm⟩
      · obtain ⟨r', hr', hb⟩ := h
        exact Or.inr ⟨r', List.mem_cons_of_mem _ hr', hb⟩

lemma length_filter_eq_one_of_nodup_map {α β : Type} [DecidableEq β]
    (g : α → β) (l : List α) (d : β) (hn : (l.map g).Nodup)
    (hm : d ∈ l.map g) :
    (l.filter (fun a => decide (g a = d))).length = 1 := by
  induction l with
  | nil => simp at hm
  | cons a t ih =>
      rw [List.map_cons, List.nodup_cons] at hn
      obtain ⟨hna, hnt⟩ := hn
      by_cases had : g a = d
      · have hnone : t.filter (fun x => decide (g x = d)) = [] := by
          rw [List.filter_eq_nil_iff]
          intro x hx hgx
          apply hna
          rw [had, ← (by simpa using hgx : g x = d)]
          exact List.mem_map_of_mem g hx
        rw [List.filter_cons]
        simp [had, hnone]
      · rw [List.filter_cons]
        have hfa : decide (g a = d) = false := by simp [had]
        rw [hfa]
        simp only [Bool.false_eq_true, if_false]
        rw [List.map_cons] at hm
        rcases List.mem_cons.mp hm with h | h
        · exact absurd h.symm had
        · exact ih hnt h

/-- C1: digest-based dedup — in a run, for any byte content delivered by
at least one image-classified response, exactly one image file with that
content is on disk at the end, whatever the arrival order and URLs; and no
two files on disk share a content digest.  Collision-freedom of SHA-256 on
the run's bodies is the `hinj` hypothesis. -/
theorem image_dedup_unique (sha : List Nat → String) (rs : List Response)
    (B : List Nat)
    (hinj : ∀ r ∈ rs, ∀ r' ∈ rs, sha r.body = sha r'.body → r.body = r'.body)
    (hB : B ≠ [])
    (hex : ∃ r, r ∈ rs ∧ r.resource_type = "image"
      ∧ pyStartsWith r.content_type "image/" = true ∧ r.body = B) :
    ((runInterceptor sha rs).files.filter (fun f => f.2 = B)).length = 1
    ∧ ((runInterceptor sha rs).files.map (fun f => sha f.2)).Nodup := by
  obtain ⟨r, hr, hres, hct, hbody⟩ := hex
  obtain ⟨hsaved, hnodup⟩ := runInterceptor_good sha rs
  refine ⟨?_, hnodup⟩
  have hmem : sha B ∈ (runInterceptor sha rs).saved_hashes := by
    obtain ⟨l, t, rfl⟩ := List.append_of_mem hr
    unfold runInterceptor
    rw [List.foldl_append, List.foldl_cons]
    apply foldl_saved_mono
    have hq := qualifying_mem_saved sha r
      (l.foldl (fun st r => save_response_images sha r st) ⟨[], []⟩)
      hres hct (by rw [hbody]; exact hB)
    rwa [hbody] at hq
  have hmap : sha B ∈ (runInterceptor sha rs).files.map (fun f => sha f.2) := by
    rw [hsaved] at hmem
    exact List.mem_reverse.mp hmem
  have hfc : (runInterceptor sha rs).files.filter (fun f => decide (f.2 = B))
      = (runInterceptor sha rs).files.filter
        (fun f => decide (sha f.2 = sha B)) := by
    apply List.filter_congr
    intro f hf
    have hfrom := foldl_files_from sha rs ⟨[], []⟩ f hf
    rcases hfrom with h0 | h0
    · simp at h0
    · obtain ⟨r', hr', hb'⟩ := h0
      apply decide_eq_decide.mpr
      constructor
      · intro he
        rw [he]
      · intro he
        have hbb := hinj r' hr' r hr (by rw [hb', hbody]; exact he)
        exact hb' ▸ (hbb.trans hbody)
  rw [hfc]
  exact length_filter_eq_one_of_nodup_map (fun f => sha f.2)
    (runInterceptor sha rs).files (sha B) hnodup hmap

/-- A concrete stand-in digest function used only to instantiate witness
runs. -/
def constDigest : List Nat → String :=
  fun _ => "d"

/-- Witness for C1: the same 3-byte body served twice under different URLs
and content types yields exactly one file with that content and pairwise
distinct file digests. -/
theorem image_dedup_unique_witness :
    ((runInterceptor constDigest
        [Response.mk "image" "image/png" [1, 2, 3] "http://a/x.png",
          Response.mk "image" "image/jpeg" [1, 2, 3] "http://b/y"]).files.filter
      (fun f => f.2 = [1, 2, 3])).length = 1
    ∧ ((runInterceptor constDigest
        [Response.mk "image" "image/png" [1, 2, 3] "http://a/x.png",
          Response.mk "image" "image/jpeg" [1, 2, 3] "http://b/y"]).files.map
      (fun f => constDigest f.2)).Nodup :=
  image_dedup_unique constDigest
    [Response.mk "image" "image/png" [1, 2, 3] "http://a/x.png",
      Response.mk "image" "image/jpeg" [1, 2, 3] "http://b/y"]
    [1, 2, 3] (by decide) (by decide)
    ⟨Response.mk "image" "image/png" [1, 2, 3] "http://a/x.png", by decide⟩

/-- C10: the digest is inserted into the saved-hash set before the file
write is attempted, so when the write raises, the digest is recorded while
no file was written, and any later response with identical bytes is
discarded as a duplicate — the set can record content with no file on
disk. -/
theorem digest_recorded_before_write (sha : List Nat → String)
    (r : Response) (st : InterceptState)
    (h1 : r.resource_type = "image")
    (h2 : pyStartsWith r.content_type "image/" = true)
    (h3 : r.body ≠ [])
    (h4 : sha r.body ∉ st.saved_hashes) :
    (save_response_images_exc sha false r st).saved_hashes
        = sha r.body :: st.saved_hashes
    ∧ (save_response_images_exc sha false r st).files = st.files
    ∧ ∀ r' : Response, r'.body = r.body →
        save_response_images sha r'
            (save_response_images_exc sha false r st)
          = save_response_images_exc sha false r st := by
  have hstate : save_response_images_exc sha false r st
      = InterceptState.mk (sha r.body :: st.saved_hashes) st.files := by
    simp only [save_response_images_exc]
    rw [if_neg (not_not_intro h1), if_neg (by simpa using h2), if_neg h3,
      if_neg h4]
    simp
  refine ⟨by rw [hstate], by rw [hstate], ?_⟩
  intro r' hb'
  rw [hstate]
  simp only [save_response_images, save_response_images_exc]
  by_cases ha : r'.resource_type = "image"
  case neg => rw [if_pos ha]
  rw [if_neg (not_not_intro ha)]
  by_cases hbs : pyStartsWith r'.content_type "image/" = true
  case neg => rw [if_pos (by simpa using hbs)]
  rw [if_neg (by simpa using hbs)]
  by_cases hc : r'.body = []
  case pos => rw [if_pos hc]
  rw [if_neg hc]
  have hm : sha r'.body
      ∈ (InterceptState.mk (sha r.body :: st.saved_hashes) st.files).saved_hashes := by
    rw [hb']
    exact List.mem_cons_self _ _
  rw [if_pos hm]

/-- Witness for C10: a failed write records the digest with no file, and a
second response carrying the same bytes under another URL leaves the state
unchanged. -/
theorem digest_recorded_before_write_witness :
    (save_response_images_exc constDigest false
        (Response.mk "image" "image/png" [5] "http://a/x.png")
        (InterceptState.mk [] [])).saved_hashes = ["d"]
    ∧ (save_response_images_exc constDigest false
        (Response.mk "image" "image/png" [5] "http://a/x.png")
        (InterceptState.mk [] [])).files = []
    ∧ save_response_images constDigest
        (Response.mk "image" "image/png" [5] "http://b/z.png")
        (save_response_images_exc constDigest false
          (Response.mk "image" "image/png" [5] "http://a/x.png")
          (InterceptState.mk [] []))
      = save_response_images_exc constDigest false
          (Response.mk "image" "image/png" [5] "http://a/x.png")
          (InterceptState.mk [] []) :=
  ⟨(digest_recorded_before_write constDigest
      (Response.mk "image" "image/png" [5] "http://a/x.png")
      (InterceptState.mk [] []) (by decide) (by decide) (by decide)
      (by decide)).1,
    (digest_recorded_before_write constDigest
      (Response.mk "image" "image/png" [5] "http://a/x.png")
      (InterceptState.mk [] []) (by decide) (by decide) (by decide)
      (by decide)).2.1,
    (digest_recorded_before_write constDigest
      (Response.mk "image" "image/png" [5] "http://a/x.png")
      (InterceptState.mk [] []) (by decide) (by decide) (by decide)
      (by decide)).2.2
      (Response.mk "image" "image/png" [5] "http://b/z.png") (by decide)⟩

end Kindle
